import Mathlib

/-!
Verification of the PPASR trainer orchestration (src/ppasr/trainer.py).

This file gives a shallow embedding of the orchestration logic of the
PPASRTrainer class and proves the stated properties about it:

* the paddle ExponentialDecay learning-rate scheduler and the resume
  semantics of PPASRTrainer.train (epoch parsing, scheduler creation,
  one scheduler step per completed epoch);
* PPASRTrainer.save_model as an operation on a file-system modelled as
  the finite set of checkpoint blob files;
* the character-error-rate aggregation of PPASRTrainer.__test and
  PPASRTrainer.evaluate;
* the pretrained-weight filtering of PPASRTrainer.train;
* the order of effects of PPASRTrainer.train and PPASRTrainer.evaluate
  (data loading, variant dispatch, checkpoint loading, batch processing,
  rank gating of side effects), as an event trace;
* the export wrapper composition of PPASRTrainer.export.

Machine reals (python floats) are modelled as rationals; paddle tensors
are abstracted where the claims treat them as opaque.
-/

namespace PPASR

/-! ## The learning-rate scheduler (paddle.optimizer.lr.ExponentialDecay)

paddle LRScheduler stores base learning rate, gamma, last_epoch and
last_lr; its constructor stores last_epoch and then calls step() once,
and each step() increments last_epoch and recomputes last_lr; for
ExponentialDecay, get_lr() returns base_lr * gamma ** last_epoch.
-/

structure ExponentialDecay where
  base_lr : ℚ
  gamma : ℚ
  last_epoch : ℤ
  last_lr : ℚ
deriving DecidableEq

def ExponentialDecay.get_lr (s : ExponentialDecay) : ℚ :=
  s.base_lr * s.gamma ^ s.last_epoch

/-- One scheduler step: increment last_epoch, recompute last_lr. -/
def ExponentialDecay.step (s : ExponentialDecay) : ExponentialDecay :=
  { base_lr := s.base_lr, gamma := s.gamma, last_epoch := s.last_epoch + 1,
    last_lr := s.base_lr * s.gamma ^ (s.last_epoch + 1) }

/-- The ExponentialDecay constructor: store the given last_epoch, then step once. -/
def ExponentialDecay.init (learning_rate gamma : ℚ) (last_epoch : ℤ) : ExponentialDecay :=
  ExponentialDecay.step
    { base_lr := learning_rate, gamma := gamma, last_epoch := last_epoch,
      last_lr := learning_rate }

/-! ## Parsing the resume epoch (trainer.py line 254)

last_epoch = int(re.findall(r..d+.., resume_model)[-1]): the maximal
runs of decimal digits in the path, read as numbers; the last run is
taken.  digitRuns returns those runs in order.
-/

def digitRunsAux : List Char → Option ℕ → List ℕ
  | [], none => []
  | [], some n => [n]
  | c :: cs, cur =>
    if c.isDigit then
      digitRunsAux cs (some (10 * cur.getD 0 + (c.toNat - 48)))
    else
      match cur with
      | none => digitRunsAux cs none
      | some n => n :: digitRunsAux cs none

def digitRuns (s : List Char) : List ℕ := digitRunsAux s none

/-- int(re.findall(r..d+.., p)[-1]); none when the path holds no digit
(python would raise IndexError). -/
def parseResumeEpoch (p : String) : Option ℕ := (digitRuns p.data).getLast?

/-- Line 254: last_epoch = int(re.findall(...)[-1]) if resume_model is not None else 0. -/
def trainLastEpoch : Option String → Option ℕ
  | some p => parseResumeEpoch p
  | none => some 0

/-- Lines 255-256: ExponentialDecay(learning_rate=learning_rate, gamma=0.9,
last_epoch=last_epoch - 1). -/
def trainScheduler (learning_rate : ℚ) (resume_model : Option String) :
    Option ExponentialDecay :=
  (trainLastEpoch resume_model).map
    (fun e => ExponentialDecay.init learning_rate (9 / 10) ((e : ℤ) - 1))

/-- Line 300: for epoch in range(last_epoch, num_epoch); the loop indices. -/
def trainEpochIndices (last_epoch num_epoch : ℕ) : List ℕ :=
  List.range' last_epoch (num_epoch - last_epoch)

/-- The scheduler state in effect while the epoch labelled m runs (labels are
the loop index + 1, line 301).  The scheduler is created with
last_epoch = resume_epoch - 1 (lines 254-256) and stepped once at the end of
every completed epoch (line 350), so during epoch label m it has been stepped
m - 1 - resume_epoch times since construction. -/
def schedDuringEpochLabel (learning_rate : ℚ) (resume_epoch m : ℕ) : ExponentialDecay :=
  ExponentialDecay.step^[m - 1 - resume_epoch]
    (ExponentialDecay.init learning_rate (9 / 10) ((resume_epoch : ℤ) - 1))

/-! ## Checkpoint saving (trainer.py lines 380-390)

save_model writes model.pdparams and optimizer.pdopt under
save_model_path/use_model/epoch_N, then deletes the directory
save_model_path/use_model/epoch_(N-3) when it exists.  The file system
is modelled as the finite set of existing checkpoint blob files, a blob
file being keyed by (save_model_path, use_model, epoch, blob kind).
-/

inductive Blob
  | modelParams
  | optimizerState
deriving DecidableEq

abbrev CkptFile := String × String × ℤ × Blob

/-- Lines 380-390: write both blobs for the given epoch (creating the
directory as needed), then remove every file of the epoch - 3 directory
of the same root and variant; removing nothing when that directory is
absent. -/
def save_model (save_model_path use_model : String) (epoch : ℤ)
    (fs : Finset CkptFile) : Finset CkptFile :=
  (insert (save_model_path, use_model, epoch, Blob.modelParams)
      (insert (save_model_path, use_model, epoch, Blob.optimizerState) fs)).filter
    (fun f => ¬(f.1 = save_model_path ∧ f.2.1 = use_model ∧ f.2.2.1 = epoch - 3))

/-- The epochs that still have at least one blob on disk. -/
def epochsOnDisk (fs : Finset CkptFile) : Finset ℤ := fs.image (fun f => f.2.2.1)

/-- Saving a sequence of epochs one after another. -/
def saveSequential (save_model_path use_model : String) (epochs : List ℤ)
    (fs : Finset CkptFile) : Finset CkptFile :=
  epochs.foldl (fun s e => save_model save_model_path use_model e s) fs

/-! ## Character error rate (trainer.py lines 178-181 and 368-375) -/

/-- Fuel-indexed Levenshtein recurrence.  Every recursive call consumes
one unit of fuel and at least one symbol of the combined input, so with
fuel = combined length the zero-fuel case is never reached. -/
def levF : ℕ → List Char → List Char → ℕ
  | _, [], t => t.length
  | _, a :: s, [] => (a :: s).length
  | 0, _, _ => 0
  | fuel + 1, a :: s, b :: t =>
    if a = b then levF fuel s t
    else 1 + min (levF fuel (a :: s) t) (min (levF fuel s (b :: t)) (levF fuel s t))

/-- Modelled from the spec: ppasr.utils.metrics.cer is not under src/.
Section 4.3 of the spec defines the per-sample character error rate as
the edit distance between hypothesis and reference normalized by
reference length; in the code the normalization by len(label) happens at
the call sites (trainer.py lines 180 and 370), so the missing
metrics.cer is the raw edit distance between the two token sequences. -/
def cer (hyp ref : List Char) : ℕ := levF (hyp.length + ref.length) hyp ref

/-- Lines 180 / 370: c.append(cer(out_string, label) / float(len(label))).
A zero-length reference makes the division raise ZeroDivisionError,
modelled as none. -/
def sampleErr (hyp ref : List Char) : Option ℚ :=
  if ref.length = 0 then none
  else some ((cer hyp ref : ℚ) / (ref.length : ℚ))

/-- The list c of per-sample values accumulated over all (hypothesis,
reference) pairs of the evaluated set; none as soon as one pair fails. -/
def collectCer : List (List Char × List Char) → Option (List ℚ)
  | [] => some []
  | p :: ps =>
    match sampleErr p.1 p.2 with
    | none => none
    | some v =>
      match collectCer ps with
      | none => none
      | some vs => some (v :: vs)

/-- Lines 181 / 375: float(sum(c) / len(c)); an empty c would itself
divide by zero. -/
def aggregateCer (pairs : List (List Char × List Char)) : Option ℚ :=
  match collectCer pairs with
  | none => none
  | some c => if c.length = 0 then none else some (c.sum / (c.length : ℚ))

/-! ## State dicts and pretrained-weight loading (trainer.py lines 269-291)

A state dict is an association list from parameter name to tensor; a
tensor is a shape together with an opaque payload identifying its
values.
-/

structure Tensor where
  shape : List ℕ
  payload : ℕ
deriving DecidableEq

abbrev StateDict := List (String × Tensor)

/-- Dict lookup by parameter name. -/
def sdLookup (d : StateDict) (n : String) : Option Tensor :=
  (d.find? (fun p => p.1 == n)).map (fun p => p.2)

/-- dict.pop(n, None): remove the entry named n. -/
def sdErase (d : StateDict) (n : String) : StateDict :=
  d.filter (fun p => !(p.1 == n))

inductive LoadWarning
  | shapeMismatch (name : String)
  | lackWeight (name : String)
deriving DecidableEq

/-- One iteration of the loop of lines 274-281, processing the model
parameter p against the loaded dict: a parameter present with a
different shape is popped from the dict with a warning; a parameter
missing from the dict is reported with a warning. -/
def prunePretrainedStep (acc : StateDict × List LoadWarning) (p : String × Tensor) :
    StateDict × List LoadWarning :=
  match sdLookup acc.1 p.1 with
  | some t =>
    if p.2.shape ≠ t.shape then
      (sdErase acc.1 p.1, acc.2 ++ [LoadWarning.shapeMismatch p.1])
    else acc
  | none => (acc.1, acc.2 ++ [LoadWarning.lackWeight p.1])

/-- Lines 274-281: iterate over model.state_dict(), pruning the loaded
dict and collecting the warnings printed along the way. -/
def prunePretrained (model_dict pre : StateDict) : StateDict × List LoadWarning :=
  model_dict.foldl prunePretrainedStep (pre, [])

/-- paddle set_state_dict / set_dict: every model parameter takes the
value of the same name from the dict when present, and keeps its current
value otherwise; extra dict keys are ignored. -/
def set_state_dict (model_dict d : StateDict) : StateDict :=
  model_dict.map (fun p =>
    match sdLookup d p.1 with
    | some t => (p.1, t)
    | none => p)

/-- Lines 270-283: the whole pretrained-model load, returning the new
model state and the warnings; no failure is possible. -/
def loadPretrained (model_dict pre : StateDict) : StateDict × List LoadWarning :=
  (set_state_dict model_dict (prunePretrained model_dict pre).1,
   (prunePretrained model_dict pre).2)

/-- Lines 269-291: the model state entering the first training batch,
after the optional pretrained load (lines 270-283) and then the optional
resume load (lines 286-291). -/
def modelStateBeforeTraining (model_init : StateDict) (pre res : Option StateDict) :
    StateDict :=
  let m1 := match pre with
    | some p => (loadPretrained model_init p).1
    | none => model_init
  match res with
  | some r => set_state_dict m1 r
  | none => m1

/-- Line 290: optimizer.set_state_dict replaces the optimizer state with
the loaded checkpoint state. -/
def optStateBeforeTraining (opt_init : StateDict) (res_opt : Option StateDict) :
    StateDict :=
  match res_opt with
  | some r => r
  | none => opt_init

/-! ## Paths and model-variant dispatch -/

/-- os.path.join for the two-component joins used in trainer.py. -/
def pathJoin (a b : String) : String :=
  if a.data.getLast? = some '/' then a ++ b else a ++ "/" ++ b

/-- Lines 136-141 / 244-249 / 405-410: the closed set of model variants. -/
def knownVariant (use_model : String) : Bool :=
  use_model == "deepspeech2" || use_model == "deepspeech2_light"

/-! ## The effects of train and evaluate, as an event trace

trainEvents cfg is the sequence of effects performed by one worker
process executing PPASRTrainer.train (lines 206-350); a raise event is
always the last event of the trace.  evaluateEvents is the same for
PPASRTrainer.evaluate (lines 102-182).
-/

inductive Ev
  | deleteLogs
  | createLogWriter
  | fleetSetup
  | readAugmentConf
  | buildTrainDataset
  | buildTrainLoader
  | buildTestDataset
  | buildTestLoader
  | buildModel
  | raiseUnknownModel
  | createScheduler
  | createOptimizer
  | raiseNoEpochInResumePath
  | printMsg
  | loadPretrainedFile
  | raiseMissingModelBlob
  | raiseMissingOptBlob
  | loadModelState
  | loadOptState
  | createBeamDecoder
  | raiseMissingBeamDecoder
  | processBatch
  | scalarLog
  | saveCheckpoint
  | runEval
  | schedStep
  | processEvalBatch
deriving DecidableEq

/-- Events that write to the file system: deleting old logs, creating
the visualdl log directory, appending a scalar to the visualdl log,
writing a checkpoint. -/
def Ev.isFsWrite : Ev → Bool
  | .deleteLogs | .createLogWriter | .scalarLog | .saveCheckpoint => true
  | _ => false

/-- Events that emit a log record: console prints and scalar-log writes. -/
def Ev.isLogEmission : Ev → Bool
  | .printMsg | .scalarLog => true
  | _ => false

/-- Events that load data: construction of the PPASRDataset objects,
which read the manifest, vocabulary and mean/std files. -/
def Ev.isDataLoad : Ev → Bool
  | .buildTrainDataset | .buildTestDataset => true
  | _ => false

structure TrainCfg where
  use_model : String
  nranks : ℕ
  local_rank : ℕ
  augment_conf_path : Option String
  pretrained_model : Option String
  pretrain_warning_count : ℕ
  resume_model : Option String
  num_epoch : ℕ
  batches_per_epoch : ℕ
  files : List String

/-- Lines 209-212: rank 0 deletes old logs and creates the log writer. -/
def logInitEvents (local_rank : ℕ) : List Ev :=
  if local_rank = 0 then [.deleteLogs, .createLogWriter] else []

/-- Lines 213-215: fleet.init when more than one worker. -/
def fleetEvents (nranks : ℕ) : List Ev :=
  if 1 < nranks then [.fleetSetup] else []

/-- Lines 218-241: augmentation-config read (only when a path is given),
then train dataset, train loader, test dataset, test loader. -/
def dataEvents (cfg : TrainCfg) : List Ev :=
  (match cfg.augment_conf_path with
   | some _ => [.readAugmentConf]
   | none => []) ++
  [.buildTrainDataset, .buildTrainLoader, .buildTestDataset, .buildTestLoader]

/-- Lines 269-283: paddle.load of the pretrained file, one print per
mismatched or missing parameter, and the success print. -/
def pretrainEvents (cfg : TrainCfg) : List Ev :=
  match cfg.pretrained_model with
  | some _ =>
    [.loadPretrainedFile] ++ List.replicate cfg.pretrain_warning_count .printMsg ++
      [.printMsg]
  | none => []

/-- Lines 304-329, one batch: forward/backward/step, the rank-0 progress
print and scalar log every 100 batches, the rank-0 mid-epoch checkpoint
every 10000 batches (except batch 0). -/
def batchEvents (local_rank b : ℕ) : List Ev :=
  [.processBatch] ++
  (if b % 100 = 0 ∧ local_rank = 0 then [.printMsg, .scalarLog] else []) ++
  (if b % 10000 = 0 ∧ b ≠ 0 ∧ local_rank = 0 then [.saveCheckpoint] else [])

/-- Lines 302-350, one epoch: all batches, then the rank-0 block
(prints, evaluation, Test cer scalar, Learning rate scalar, checkpoint
save, lines 332-349), then the unconditional scheduler step (line 350). -/
def epochEvents (cfg : TrainCfg) : List Ev :=
  ((List.range cfg.batches_per_epoch).flatMap (batchEvents cfg.local_rank)) ++
  (if cfg.local_rank = 0 then
    [.printMsg, .runEval, .printMsg, .printMsg, .scalarLog, .scalarLog, .saveCheckpoint]
  else []) ++
  [.schedStep]

/-- Line 300: for epoch in range(last_epoch, num_epoch). -/
def epochLoopEvents (cfg : TrainCfg) (last_epoch : ℕ) : List Ev :=
  (List.range (cfg.num_epoch - last_epoch)).flatMap (fun _ => epochEvents cfg)

/-- Lines 286-291: assert model.pdparams exists, assert optimizer.pdopt
exists, then load both and print; followed by the epoch loop. -/
def resumeLoadEvents (cfg : TrainCfg) (p : String) (e : ℕ) : List Ev :=
  if cfg.files.contains (pathJoin p "model.pdparams") then
    if cfg.files.contains (pathJoin p "optimizer.pdopt") then
      [.loadModelState, .loadOptState, .printMsg] ++ epochLoopEvents cfg e
    else [.raiseMissingOptBlob]
  else [.raiseMissingModelBlob]

/-- Lines 252-350: everything after the model-variant dispatch.  The
resume-epoch parse (line 254) raises IndexError when the path holds no
digit; otherwise the scheduler and optimizer are created, the dataset
size is printed (line 267, on every rank), the optional pretrained load
and the optional resume load run, and the epoch loop starts. -/
def trainAfterModelEvents (cfg : TrainCfg) : List Ev :=
  match cfg.resume_model with
  | some p =>
    match parseResumeEpoch p with
    | none => [.raiseNoEpochInResumePath]
    | some e =>
      [.createScheduler, .createOptimizer, .printMsg] ++ pretrainEvents cfg ++
        resumeLoadEvents cfg p e
  | none =>
    [.createScheduler, .createOptimizer, .printMsg] ++ pretrainEvents cfg ++
      epochLoopEvents cfg 0

/-- Lines 206-241: the setup performed before the variant dispatch. -/
def setupEvents (cfg : TrainCfg) : List Ev :=
  logInitEvents cfg.local_rank ++ fleetEvents cfg.nranks ++ dataEvents cfg

/-- PPASRTrainer.train, lines 206-350, as the sequence of effects one
worker performs.  The model-variant dispatch (lines 244-249) happens
after the datasets and loaders are built. -/
def trainEvents (cfg : TrainCfg) : List Ev :=
  setupEvents cfg ++
    (if knownVariant cfg.use_model then [.buildModel] ++ trainAfterModelEvents cfg
     else [.raiseUnknownModel])

structure EvalCfg where
  use_model : String
  decoder : String
  beam_decoder_available : Bool
  resume_model : String
  num_batches : ℕ
  files : List String

/-- PPASRTrainer.evaluate, lines 127-182: test dataset and loader are
built first (lines 128-133), then the variant dispatch (lines 136-141),
the checkpoint assert and load (lines 143-144), the beam-search import
(lines 148-153) and the decode loop (lines 171-180). -/
def evaluateEvents (cfg : EvalCfg) : List Ev :=
  [.buildTestDataset, .buildTestLoader] ++
    (if knownVariant cfg.use_model then
      [.buildModel] ++
        (if cfg.files.contains (pathJoin cfg.resume_model "model.pdparams") then
          [.loadModelState] ++
            (if cfg.decoder == "ctc_beam_search" then
              if cfg.beam_decoder_available then
                [.createBeamDecoder] ++
                  (List.range cfg.num_batches).flatMap (fun _ => [.processEvalBatch])
              else [.raiseMissingBeamDecoder]
            else (List.range cfg.num_batches).flatMap (fun _ => [.processEvalBatch]))
        else [.raiseMissingModelBlob])
    else [.raiseUnknownModel])

/-- The C3 claim on a trace: an unknown-variant configuration error is
raised, and no data loading happens before it. -/
def raisesConfigErrorBeforeDataLoad (tr : List Ev) : Bool :=
  tr.contains .raiseUnknownModel &&
    (tr.takeWhile (fun e => !(e == .raiseUnknownModel))).all (fun e => !e.isDataLoad)

/-! ## The export wrapper (trainer.py lines 392-443)

The wrapper Model composes the Normalizer built from the stored
feature mean and std (line 422), the Mask layer, the trained base model
and a Softmax (lines 427-432).  The paddle tensors and the layer
implementations (ppasr.model_utils, outside this core) are abstracted
by a type T and opaque stage functions.
-/

structure InferStages (T : Type) where
  normalizerOf : ℚ → ℚ → T → T
  mask : T → T → T
  base_model : T → T → T → T × T
  softmax : T → T

structure ExportArtifact (T : Type) where
  forward : T → T → T → T
  input_spec : List (List ℤ)

/-- PPASRTrainer.export, lines 392-443: variant dispatch, assert that
model.pdparams exists under the checkpoint path (lines 413-414), then
serialization of the wrapper with the fixed three-tensor InputSpec list
(lines 438-442); -1 is the wildcard dimension of paddle InputSpec. -/
def exportRun (T : Type) (st : InferStages T) (use_model : String) (files : List String)
    (resume_model : String) (feature_mean feature_std : ℚ)
    (feature_dim num_rnn_layers rnn_size : ℤ) : Except String (ExportArtifact T) :=
  if knownVariant use_model then
    if files.contains (pathJoin resume_model "model.pdparams") then
      Except.ok
        { forward := fun audio audio_len init_state_h_box =>
            st.softmax
              (st.base_model
                (st.mask (st.normalizerOf feature_mean feature_std audio) audio_len)
                audio_len init_state_h_box).1,
          input_spec := [[-1, feature_dim, -1], [-1], [num_rnn_layers, -1, rnn_size]] }
    else Except.error "model.pdparams does not exist under the checkpoint path"
  else Except.error "unknown model variant"

/-! ## Concrete configurations used by witnesses and counterexamples -/

def cfgResume10 : TrainCfg :=
  { use_model := "deepspeech2", nranks := 1, local_rank := 0, augment_conf_path := none,
    pretrained_model := none, pretrain_warning_count := 0,
    resume_model := some "models/deepspeech2/epoch_10/", num_epoch := 11,
    batches_per_epoch := 1,
    files := ["models/deepspeech2/epoch_10/model.pdparams",
              "models/deepspeech2/epoch_10/optimizer.pdopt"] }

def cfgBogusTrain : TrainCfg :=
  { use_model := "bogus", nranks := 1, local_rank := 0, augment_conf_path := none,
    pretrained_model := none, pretrain_warning_count := 0,
    resume_model := none, num_epoch := 1, batches_per_epoch := 1, files := [] }

def cfgBogusEval : EvalCfg :=
  { use_model := "bogus", decoder := "ctc_greedy", beam_decoder_available := true,
    resume_model := "models/deepspeech2/epoch_50/", num_batches := 1, files := [] }

def cfgResumeMissing : TrainCfg :=
  { use_model := "deepspeech2", nranks := 1, local_rank := 0, augment_conf_path := none,
    pretrained_model := none, pretrain_warning_count := 0,
    resume_model := some "models/deepspeech2/epoch_7/", num_epoch := 50,
    batches_per_epoch := 2, files := [] }

def cfgRankOne : TrainCfg :=
  { use_model := "deepspeech2", nranks := 2, local_rank := 1, augment_conf_path := none,
    pretrained_model := none, pretrain_warning_count := 0,
    resume_model := none, num_epoch := 1, batches_per_epoch := 1, files := [] }

def cfgBoth : TrainCfg :=
  { use_model := "deepspeech2", nranks := 1, local_rank := 0, augment_conf_path := none,
    pretrained_model := some "models/pretrained/", pretrain_warning_count := 1,
    resume_model := some "models/deepspeech2/epoch_4/", num_epoch := 5,
    batches_per_epoch := 1,
    files := ["models/deepspeech2/epoch_4/model.pdparams",
              "models/deepspeech2/epoch_4/optimizer.pdopt"] }

def stExport : InferStages ℕ :=
  { normalizerOf := fun _ _ x => x + 1, mask := fun x _ => x * 2,
    base_model := fun x _ _ => (x + 3, 0), softmax := fun x => x * 5 }

def filesExport : List String := ["models/deepspeech2/epoch_50/model.pdparams"]

/-- The artifact exportRun produces on stExport and filesExport. -/
def artExport : ExportArtifact ℕ :=
  { forward := fun audio audio_len init_state_h_box =>
      stExport.softmax
        (stExport.base_model
          (stExport.mask (stExport.normalizerOf 0 1 audio) audio_len)
          audio_len init_state_h_box).1,
    input_spec := [[-1, 161, -1], [-1], [3, -1, 1024]] }

/-- Witness model dict: three parameters of shapes [2], [3], [4]. -/
def mdW : StateDict := [("a", ⟨[2], 0⟩), ("b", ⟨[3], 1⟩), ("c", ⟨[4], 2⟩)]

/-- Witness pretrained dict: parameter a matches, parameter b has a
mismatched shape, parameter c is missing. -/
def preW : StateDict := [("a", ⟨[2], 10⟩), ("b", ⟨[9], 11⟩)]

/-- Witness resume dict: covers every parameter of mdW. -/
def resW : StateDict := [("a", ⟨[2], 99⟩), ("b", ⟨[3], 98⟩), ("c", ⟨[4], 97⟩)]

/-! ## Helper lemmas: scheduler -/

theorem ExponentialDecay.iterate_step_init (b g : ℚ) (L : ℤ) (n : ℕ) :
    ExponentialDecay.step^[n] (ExponentialDecay.init b g L) =
      { base_lr := b, gamma := g, last_epoch := L + 1 + n,
        last_lr := b * g ^ (L + 1 + (n : ℤ)) } := by
  induction n with
  | zero => simp [ExponentialDecay.init, ExponentialDecay.step]
  | succ n ih =>
    rw [Function.iterate_succ_apply', ih]
    have h : L + 1 + (n : ℤ) + 1 = L + 1 + ((n + 1 : ℕ) : ℤ) := by push_cast; ring
    simp only [ExponentialDecay.step]
    rw [h]

theorem schedDuringEpochLabel_closed (lr : ℚ) (e m : ℕ) (h : e + 1 ≤ m) :
    schedDuringEpochLabel lr e m =
      { base_lr := lr, gamma := 9 / 10, last_epoch := (m : ℤ) - 1,
        last_lr := lr * (9 / 10 : ℚ) ^ ((m : ℤ) - 1) } := by
  unfold schedDuringEpochLabel
  rw [ExponentialDecay.iterate_step_init]
  have h1 : (e : ℤ) - 1 + 1 + ((m - 1 - e : ℕ) : ℤ) = (m : ℤ) - 1 := by omega
  rw [h1]

/-! ## Helper lemmas: character error rate -/

theorem levF_self (fuel : ℕ) (s : List Char) (h : s.length ≤ fuel) : levF fuel s s = 0 := by
  induction s generalizing fuel with
  | nil => cases fuel <;> simp [levF]
  | cons a s ih =>
    cases fuel with
    | zero => simp at h
    | succ fuel =>
      simpa [levF] using ih fuel (by simpa using h)

theorem cer_self (s : List Char) : cer s s = 0 :=
  levF_self _ s (by omega)

theorem collectCer_eq_of_nonempty (pairs : List (List Char × List Char))
    (href : ∀ p ∈ pairs, p.2 ≠ []) :
    collectCer pairs =
      some (pairs.map (fun p => (cer p.1 p.2 : ℚ) / (p.2.length : ℚ))) := by
  induction pairs with
  | nil => simp [collectCer]
  | cons p ps ih =>
    have hp : p.2 ≠ [] := href p (by simp)
    have hps : ∀ q ∈ ps, q.2 ≠ [] := fun q hq => href q (by simp [hq])
    simp only [collectCer, sampleErr,
      if_neg (fun h => hp (List.length_eq_zero.mp h)), ih hps]
    simp

theorem collectCer_none {pairs : List (List Char × List Char)}
    {q : List Char × List Char} (hq : q ∈ pairs) (h0 : q.2 = []) :
    collectCer pairs = none := by
  induction pairs with
  | nil => simp at hq
  | cons p ps ih =>
    rcases List.mem_cons.mp hq with rfl | hmem
    · simp [collectCer, sampleErr, h0]
    · simp only [collectCer]
      cases hs : sampleErr p.1 p.2 <;> simp [ih hmem]

/-! ## Helper lemmas: trace membership -/

theorem mem_logInitEvents {r : ℕ} {e : Ev} (he : e ∈ logInitEvents r) :
    e = .deleteLogs ∨ e = .createLogWriter := by
  unfold logInitEvents at he
  split at he <;> simp at he <;> tauto

theorem mem_dataEvents {cfg : TrainCfg} {e : Ev} (he : e ∈ dataEvents cfg) :
    e = .readAugmentConf ∨ e = .buildTrainDataset ∨ e = .buildTrainLoader ∨
      e = .buildTestDataset ∨ e = .buildTestLoader := by
  unfold dataEvents at he
  rw [List.mem_append] at he
  rcases he with he | he
  · split at he <;> simp at he <;> tauto
  · simp at he; tauto

theorem mem_setupEvents {cfg : TrainCfg} {e : Ev} (he : e ∈ setupEvents cfg) :
    e = .deleteLogs ∨ e = .createLogWriter ∨ e = .fleetSetup ∨ e = .readAugmentConf ∨
      e = .buildTrainDataset ∨ e = .buildTrainLoader ∨ e = .buildTestDataset ∨
      e = .buildTestLoader := by
  unfold setupEvents at he
  rw [List.mem_append, List.mem_append] at he
  rcases he with (he | he) | he
  · rcases mem_logInitEvents he with h | h <;> tauto
  · unfold fleetEvents at he; split at he <;> simp at he <;> tauto
  · rcases mem_dataEvents he with h | h | h | h | h <;> tauto

theorem mem_setupEvents_rank_nonzero {cfg : TrainCfg} (hr : cfg.local_rank ≠ 0) {e : Ev}
    (he : e ∈ setupEvents cfg) :
    e = .fleetSetup ∨ e = .readAugmentConf ∨ e = .buildTrainDataset ∨
      e = .buildTrainLoader ∨ e = .buildTestDataset ∨ e = .buildTestLoader := by
  unfold setupEvents logInitEvents at he
  rw [if_neg hr] at he
  rw [List.mem_append, List.mem_append] at he
  rcases he with (he | he) | he
  · simp at he
  · unfold fleetEvents at he; split at he <;> simp at he <;> tauto
  · rcases mem_dataEvents he with h | h | h | h | h <;> tauto

theorem mem_pretrainEvents {cfg : TrainCfg} {e : Ev} (he : e ∈ pretrainEvents cfg) :
    e = .loadPretrainedFile ∨ e = .printMsg := by
  unfold pretrainEvents at he
  split at he
  · rw [List.mem_append, List.mem_append] at he
    rcases he with (he | he) | he
    · simp at he; tauto
    · exact Or.inr (List.mem_replicate.mp he).2
    · simp at he; tauto
  · simp at he

theorem mem_batchEvents {r b : ℕ} {e : Ev} (he : e ∈ batchEvents r b) :
    e = .processBatch ∨ e = .printMsg ∨ e = .scalarLog ∨ e = .saveCheckpoint := by
  unfold batchEvents at he
  rw [List.mem_append, List.mem_append] at he
  rcases he with (he | he) | he
  · simp at he; tauto
  · split at he <;> simp at he <;> tauto
  · split at he <;> simp at he <;> tauto

theorem batchEvents_rank_nonzero {r : ℕ} (hr : r ≠ 0) (b : ℕ) :
    batchEvents r b = [.processBatch] := by
  unfold batchEvents
  rw [if_neg (fun h => hr h.2), if_neg (fun h => hr h.2.2)]
  simp

theorem mem_epochEvents {cfg : TrainCfg} {e : Ev} (he : e ∈ epochEvents cfg) :
    e = .processBatch ∨ e = .printMsg ∨ e = .scalarLog ∨ e = .saveCheckpoint ∨
      e = .runEval ∨ e = .schedStep := by
  unfold epochEvents at he
  rw [List.mem_append, List.mem_append] at he
  rcases he with (he | he) | he
  · rw [List.mem_flatMap] at he
    obtain ⟨b, _, hb⟩ := he
    rcases mem_batchEvents hb with h | h | h | h <;> tauto
  · split at he <;> simp at he <;> tauto
  · simp at he; tauto

theorem mem_epochEvents_rank_nonzero {cfg : TrainCfg} (hr : cfg.local_rank ≠ 0) {e : Ev}
    (he : e ∈ epochEvents cfg) : e = .processBatch ∨ e = .schedStep := by
  unfold epochEvents at he
  rw [if_neg hr] at he
  rw [List.mem_append, List.mem_append] at he
  rcases he with (he | he) | he
  · rw [List.mem_flatMap] at he
    obtain ⟨b, _, hb⟩ := he
    rw [batchEvents_rank_nonzero hr] at hb
    simp at hb; tauto
  · simp at he
  · simp at he; tauto

theorem mem_epochLoopEvents {cfg : TrainCfg} {le : ℕ} {e : Ev}
    (he : e ∈ epochLoopEvents cfg le) : e ∈ epochEvents cfg := by
  unfold epochLoopEvents at he
  rw [List.mem_flatMap] at he
  obtain ⟨_, _, hb⟩ := he
  exact hb

theorem mem_resumeLoadEvents {cfg : TrainCfg} {p : String} {ep : ℕ} {e : Ev}
    (he : e ∈ resumeLoadEvents cfg p ep) :
    e = .raiseMissingModelBlob ∨ e = .raiseMissingOptBlob ∨ e = .loadModelState ∨
      e = .loadOptState ∨ e = .printMsg ∨ e ∈ epochEvents cfg := by
  unfold resumeLoadEvents at he
  split at he
  · split at he
    · rw [List.mem_append] at he
      rcases he with he | he
      · simp at he; tauto
      · exact Or.inr (Or.inr (Or.inr (Or.inr (Or.inr (mem_epochLoopEvents he)))))
    · simp at he; tauto
  · simp at he; tauto

theorem mem_trainAfterModelEvents {cfg : TrainCfg} {e : Ev}
    (he : e ∈ trainAfterModelEvents cfg) :
    e = .raiseNoEpochInResumePath ∨ e = .createScheduler ∨ e = .createOptimizer ∨
      e = .printMsg ∨ e = .loadPretrainedFile ∨ e = .raiseMissingModelBlob ∨
      e = .raiseMissingOptBlob ∨ e = .loadModelState ∨ e = .loadOptState ∨
      e ∈ epochEvents cfg := by
  unfold trainAfterModelEvents at he
  split at he
  · split at he
    · simp at he; tauto
    · rw [List.mem_append, List.mem_append] at he
      rcases he with (he | he) | he
      · simp at he; tauto
      · rcases mem_pretrainEvents he with h | h <;> tauto
      · rcases mem_resumeLoadEvents he with h | h | h | h | h | h <;> tauto
  · rw [List.mem_append, List.mem_append] at he
    rcases he with (he | he) | he
    · simp at he; tauto
    · rcases mem_pretrainEvents he with h | h <;> tauto
    · have h := mem_epochLoopEvents he; tauto

/-! ## Helper lemmas: event counts and trace tails -/

theorem count_flatMap_range_const (n : ℕ) (l : List Ev) (a : Ev) :
    ((List.range n).flatMap (fun _ => l)).count a = n * l.count a := by
  induction n with
  | zero => simp
  | succ n ih =>
    rw [List.range_succ, List.flatMap_append, List.count_append, ih]
    simp [Nat.succ_mul]

theorem schedStep_not_mem_setupEvents (cfg : TrainCfg) : Ev.schedStep ∉ setupEvents cfg := by
  intro h
  rcases mem_setupEvents h with h | h | h | h | h | h | h | h <;> simp at h

theorem schedStep_not_mem_pretrainEvents (cfg : TrainCfg) :
    Ev.schedStep ∉ pretrainEvents cfg := by
  intro h
  rcases mem_pretrainEvents h with h | h <;> simp at h

theorem count_schedStep_epochEvents (cfg : TrainCfg) :
    (epochEvents cfg).count Ev.schedStep = 1 := by
  unfold epochEvents
  rw [List.count_append, List.count_append]
  have h1 : ((List.range cfg.batches_per_epoch).flatMap
      (batchEvents cfg.local_rank)).count Ev.schedStep = 0 := by
    rw [List.count_eq_zero]
    intro hmem
    rw [List.mem_flatMap] at hmem
    obtain ⟨b, _, hb⟩ := hmem
    rcases mem_batchEvents hb with h | h | h | h <;> simp at h
  have h2 : (if cfg.local_rank = 0 then
      ([.printMsg, .runEval, .printMsg, .printMsg, .scalarLog, .scalarLog,
        .saveCheckpoint] : List Ev)
    else []).count Ev.schedStep = 0 := by
    split <;> decide
  rw [h1, h2]
  decide

theorem count_schedStep_epochLoopEvents (cfg : TrainCfg) (le : ℕ) :
    (epochLoopEvents cfg le).count Ev.schedStep = cfg.num_epoch - le := by
  unfold epochLoopEvents
  rw [count_flatMap_range_const, count_schedStep_epochEvents, Nat.mul_one]

theorem count_schedStep_trainEvents (cfg : TrainCfg) (p : String) (e : ℕ)
    (hres : cfg.resume_model = some p) (hk : knownVariant cfg.use_model = true)
    (hparse : parseResumeEpoch p = some e)
    (hm : cfg.files.contains (pathJoin p "model.pdparams") = true)
    (ho : cfg.files.contains (pathJoin p "optimizer.pdopt") = true) :
    (trainEvents cfg).count Ev.schedStep = cfg.num_epoch - e := by
  simp only [trainEvents, if_pos hk, trainAfterModelEvents, hres, hparse,
    resumeLoadEvents, if_pos hm, if_pos ho, List.count_append]
  rw [List.count_eq_zero.mpr (schedStep_not_mem_setupEvents cfg),
    List.count_eq_zero.mpr (schedStep_not_mem_pretrainEvents cfg),
    count_schedStep_epochLoopEvents]
  simp [List.count_cons]

theorem setupEvents_only_setup {cfg : TrainCfg} {e : Ev} (he : e ∈ setupEvents cfg) :
    e ≠ Ev.buildModel ∧ e ≠ Ev.processBatch ∧ e ≠ Ev.runEval ∧ e ≠ Ev.saveCheckpoint ∧
    e ≠ Ev.loadModelState ∧ e ≠ Ev.loadOptState ∧ e ≠ Ev.loadPretrainedFile ∧
    e ≠ Ev.schedStep ∧ e ≠ Ev.scalarLog ∧ e ≠ Ev.processEvalBatch ∧
    e ≠ Ev.raiseMissingModelBlob ∧ e ≠ Ev.raiseMissingOptBlob := by
  rcases mem_setupEvents he with h | h | h | h | h | h | h | h <;> subst h <;> decide

/-! ## The claims -/

/-- C1: for every resume path whose trailing integer parses as e, train
resumes at loop index e, that is the epoch labels executed are
e+1 .. num_epoch (lines 300-301); the learning-rate scheduler is created
with last_epoch = e - 1 (lines 254-256); in a run with both checkpoint
blobs present the scheduler is stepped exactly once per completed epoch
(line 350); and the scheduler state in effect during any later epoch
label m equals the state of a non-interrupted run during the same epoch,
with learning-rate value lr * (9/10) ^ (m - 1); in particular resuming
from epoch 10 gives at epoch 11 the same scheduler state (hence the same
learning-rate value) as a non-interrupted run that reached epoch 10. -/
theorem C1_resume_scheduler (p : String) (e : ℕ) (lr : ℚ)
    (hp : parseResumeEpoch p = some e) :
    trainLastEpoch (some p) = some e ∧
    trainScheduler lr (some p) =
      some (ExponentialDecay.init lr (9 / 10) ((e : ℤ) - 1)) ∧
    (∀ num_epoch : ℕ,
      (trainEpochIndices e num_epoch).map (fun i => i + 1) =
        List.range' (e + 1) (num_epoch - e)) ∧
    (∀ cfg : TrainCfg, cfg.resume_model = some p →
      knownVariant cfg.use_model = true →
      cfg.files.contains (pathJoin p "model.pdparams") = true →
      cfg.files.contains (pathJoin p "optimizer.pdopt") = true →
      (trainEvents cfg).count Ev.schedStep = cfg.num_epoch - e) ∧
    (∀ m : ℕ, e + 1 ≤ m →
      schedDuringEpochLabel lr e m = schedDuringEpochLabel lr 0 m ∧
      (schedDuringEpochLabel lr e m).get_lr =
        lr * (9 / 10 : ℚ) ^ ((m : ℤ) - 1)) ∧
    schedDuringEpochLabel lr 10 11 = schedDuringEpochLabel lr 0 11 := by
  refine ⟨?_, ?_, ?_, ?_, ?_, ?_⟩
  · simp [trainLastEpoch, hp]
  · simp [trainScheduler, trainLastEpoch, hp]
  · intro n
    unfold trainEpochIndices
    have h : (fun i => i + 1) = (fun i => 1 + i) := by funext i; omega
    rw [h, List.map_add_range' 1 e (n - e) 1, Nat.add_comm 1 e]
  · intro cfg h1 h2 h3 h4
    exact count_schedStep_trainEvents cfg p e h1 h2 hp h3 h4
  · intro m hm
    rw [schedDuringEpochLabel_closed lr e m hm,
      schedDuringEpochLabel_closed lr 0 m (by omega)]
    exact ⟨rfl, by simp [ExponentialDecay.get_lr]⟩
  · rw [schedDuringEpochLabel_closed lr 10 11 (by omega),
      schedDuringEpochLabel_closed lr 0 11 (by omega)]

/-- Witness for C1 at the concrete path models/deepspeech2/epoch_10/. -/
theorem C1_resume_scheduler_witness :
    trainLastEpoch (some "models/deepspeech2/epoch_10/") = some 10 ∧
    (trainEvents cfgResume10).count Ev.schedStep = 1 ∧
    schedDuringEpochLabel 1 10 11 = schedDuringEpochLabel 1 0 11 := by
  have h := C1_resume_scheduler "models/deepspeech2/epoch_10/" 10 1 (by decide)
  refine ⟨h.1, ?_, h.2.2.2.2.2⟩
  exact (h.2.2.2.1 cfgResume10 rfl (by decide) (by decide) (by decide)).trans (by decide)

/-- C2: save_model writes both blobs of epoch N under
save_model_path/use_model/epoch_N, afterwards the directory of epoch
N - 3 under the same root and variant holds no file (it is deleted), the
deletion is a no-op when that directory is absent, and saving epochs
1..6 sequentially from an empty store leaves exactly epochs 4, 5, 6 on
disk. -/
theorem C2_save_model_retention :
    (∀ (root v : String) (fs : Finset CkptFile) (N : ℤ),
      (root, v, N, Blob.modelParams) ∈ save_model root v N fs ∧
      (root, v, N, Blob.optimizerState) ∈ save_model root v N fs) ∧
    (∀ (root v : String) (fs : Finset CkptFile) (N : ℤ) (b : Blob),
      (root, v, N - 3, b) ∉ save_model root v N fs) ∧
    (∀ (root v : String) (fs : Finset CkptFile) (N : ℤ),
      (∀ b : Blob, (root, v, N - 3, b) ∉ fs) →
      save_model root v N fs =
        insert (root, v, N, Blob.modelParams)
          (insert (root, v, N, Blob.optimizerState) fs)) ∧
    epochsOnDisk (saveSequential "models/" "deepspeech2" [1, 2, 3, 4, 5, 6] ∅) =
      ({4, 5, 6} : Finset ℤ) := by
  refine ⟨?_, ?_, ?_, ?_⟩
  · intro root v fs N
    constructor <;>
    · rw [save_model, Finset.mem_filter]
      refine ⟨by simp, ?_⟩
      rintro ⟨-, -, h3⟩
      simp at h3
      omega
  · intro root v fs N b
    rw [save_model, Finset.mem_filter]
    rintro ⟨-, h⟩
    exact h ⟨rfl, rfl, rfl⟩
  · intro root v fs N habs
    rw [save_model, Finset.filter_true_of_mem]
    intro f hf
    rintro ⟨h1, h2, h3⟩
    rcases Finset.mem_insert.mp hf with rfl | hf2
    · simp at h3
      omega
    rcases Finset.mem_insert.mp hf2 with rfl | hf3
    · simp at h3
      omega
    · apply habs f.2.2.2
      have hfe : f = (root, v, N - 3, f.2.2.2) := by
        obtain ⟨a, b, c, d⟩ := f
        simp only at h1 h2 h3 ⊢
        rw [h1, h2, h3]
      rwa [hfe] at hf3
  · decide

/-- Witness for C2 at epoch 1 over the empty store. -/
theorem C2_save_model_retention_witness :
    ("models/", "deepspeech2", (1 : ℤ), Blob.modelParams) ∈
        save_model "models/" "deepspeech2" 1 (∅ : Finset CkptFile) ∧
    save_model "models/" "deepspeech2" 1 (∅ : Finset CkptFile) =
      insert ("models/", "deepspeech2", (1 : ℤ), Blob.modelParams)
        (insert ("models/", "deepspeech2", (1 : ℤ), Blob.optimizerState) ∅) := by
  have h := C2_save_model_retention
  exact ⟨(h.1 "models/" "deepspeech2" ∅ 1).1,
    h.2.2.1 "models/" "deepspeech2" ∅ 1 (fun b => Finset.not_mem_empty _)⟩

/-- C4: with non-empty references, the per-sample value appended by the
evaluation loop (lines 180 / 370) is editDistance(hyp, ref) / len(ref),
the aggregate returned (lines 181 / 375) is the arithmetic mean of those
per-sample normalized values, a pair with identical hypothesis and
reference contributes 0, and a set of exactly matching pairs yields
aggregate 0. -/
theorem C4_cer_mean (pairs : List (List Char × List Char))
    (hne : pairs ≠ []) (href : ∀ p ∈ pairs, p.2 ≠ []) :
    (∀ p ∈ pairs,
      sampleErr p.1 p.2 = some ((cer p.1 p.2 : ℚ) / (p.2.length : ℚ))) ∧
    aggregateCer pairs =
      some (((pairs.map (fun p => (cer p.1 p.2 : ℚ) / (p.2.length : ℚ))).sum) /
        (pairs.length : ℚ)) ∧
    (∀ s : List Char, s ≠ [] → sampleErr s s = some 0) ∧
    ((∀ p ∈ pairs, p.1 = p.2) → aggregateCer pairs = some 0) := by
  refine ⟨?_, ?_, ?_, ?_⟩
  · intro p hp
    rw [sampleErr, if_neg (fun h => href p hp (List.length_eq_zero.mp h))]
  · simp only [aggregateCer, collectCer_eq_of_nonempty pairs href]
    rw [if_neg (by rw [List.length_map]; exact fun h => hne (List.length_eq_zero.mp h))]
    rw [List.length_map]
  · intro s hs
    rw [sampleErr, if_neg (fun h => hs (List.length_eq_zero.mp h)), cer_self]
    simp
  · intro hsame
    have hsum : (pairs.map (fun p => (cer p.1 p.2 : ℚ) / (p.2.length : ℚ))).sum = 0 :=
      List.sum_eq_zero (by
        intro x hx
        rw [List.mem_map] at hx
        obtain ⟨p, hp, rfl⟩ := hx
        rw [hsame p hp, cer_self]
        simp)
    simp only [aggregateCer, collectCer_eq_of_nonempty pairs href, hsum]
    rw [if_neg (by rw [List.length_map]; exact fun h => hne (List.length_eq_zero.mp h))]
    simp

/-- Witness for C4: a matching two-character pair gives aggregate 0. -/
theorem C4_cer_mean_witness :
    aggregateCer [([ 'a', 'b' ], [ 'a', 'b' ])] = some 0 :=
  (C4_cer_mean [([ 'a', 'b' ], [ 'a', 'b' ])] (by decide) (by decide)).2.2.2 (by decide)

/-- C5 counterexample: a zero-length reference is not skipped or guarded;
the per-sample computation reaches the division by the reference length
with denominator zero and the evaluation fails with a ZeroDivisionError
(modelled as none), even when the other pairs are well-formed. -/
theorem C5_counterexample :
    sampleErr [ 'a' ] [] = none ∧
    aggregateCer [([ 'a' ], [])] = none ∧
    aggregateCer [([ 'a' ], [ 'a' ]), ([ 'b' ], [])] = none := by
  decide

/-- C5 amended: the per-sample CER division of the evaluation loop is not
guarded: whenever the evaluated set contains a pair with a zero-length
reference, the evaluation fails with a division-by-zero error instead of
skipping that pair. -/
theorem C5_zero_length_reference (pairs : List (List Char × List Char))
    (q : List Char × List Char) (hq : q ∈ pairs) (h0 : q.2 = []) :
    aggregateCer pairs = none := by
  simp [aggregateCer, collectCer_none hq h0]

/-- Witness for the amended C5. -/
theorem C5_zero_length_reference_witness :
    aggregateCer [([ 'a' ], [ 'a' ]), ([], [])] = none :=
  C5_zero_length_reference _ ([], []) (by decide) rfl

/-- C3 counterexample: invoked with the unknown variant name bogus, both
train and evaluate do raise the configuration error, but the datasets
are constructed first, so the error is not raised before data loading:
the claim fails at this concrete input. -/
theorem C3_counterexample :
    raisesConfigErrorBeforeDataLoad (trainEvents cfgBogusTrain) = false ∧
    Ev.raiseUnknownModel ∈ trainEvents cfgBogusTrain ∧
    Ev.buildTrainDataset ∈ trainEvents cfgBogusTrain ∧
    raisesConfigErrorBeforeDataLoad (evaluateEvents cfgBogusEval) = false ∧
    Ev.raiseUnknownModel ∈ evaluateEvents cfgBogusEval := by
  decide

/-- C3 amended: an unknown model-variant name makes both train and
evaluate raise a fatal configuration error that ends the run before the
model is built, before any checkpoint load, and before any batch is
processed, any evaluation run or any checkpoint saved — but only after
the datasets and data loaders have been constructed, since dataset
construction precedes the variant dispatch in both methods. -/
theorem C3_unknown_variant (cfg : TrainCfg) (ecfg : EvalCfg)
    (h1 : knownVariant cfg.use_model = false)
    (h2 : knownVariant ecfg.use_model = false) :
    (trainEvents cfg).getLast? = some Ev.raiseUnknownModel ∧
    Ev.buildTrainDataset ∈ trainEvents cfg ∧
    Ev.buildModel ∉ trainEvents cfg ∧
    Ev.processBatch ∉ trainEvents cfg ∧
    Ev.runEval ∉ trainEvents cfg ∧
    Ev.saveCheckpoint ∉ trainEvents cfg ∧
    Ev.loadModelState ∉ trainEvents cfg ∧
    (evaluateEvents ecfg).getLast? = some Ev.raiseUnknownModel ∧
    Ev.buildTestDataset ∈ evaluateEvents ecfg ∧
    Ev.processEvalBatch ∉ evaluateEvents ecfg ∧
    Ev.buildModel ∉ evaluateEvents ecfg := by
  have htr : trainEvents cfg = setupEvents cfg ++ [Ev.raiseUnknownModel] := by
    unfold trainEvents
    rw [if_neg (by simp [h1])]
  have hmem : ∀ e : Ev, e ∈ trainEvents cfg →
      e ∈ setupEvents cfg ∨ e = Ev.raiseUnknownModel := by
    intro e h
    rw [htr, List.mem_append] at h
    rcases h with h | h
    · exact Or.inl h
    · simp at h; exact Or.inr h
  have hev : evaluateEvents ecfg =
      [Ev.buildTestDataset, Ev.buildTestLoader] ++ [Ev.raiseUnknownModel] := by
    unfold evaluateEvents
    rw [if_neg (by simp [h2])]
  refine ⟨by rw [htr, List.getLast?_concat], by rw [htr]; simp [setupEvents, dataEvents],
    ?_, ?_, ?_, ?_, ?_, by rw [hev]; decide, by rw [hev]; decide, by rw [hev]; decide,
    by rw [hev]; decide⟩
  · intro h
    rcases hmem _ h with h | h
    · exact (setupEvents_only_setup h).1 rfl
    · simp at h
  · intro h
    rcases hmem _ h with h | h
    · exact (setupEvents_only_setup h).2.1 rfl
    · simp at h
  · intro h
    rcases hmem _ h with h | h
    · exact (setupEvents_only_setup h).2.2.1 rfl
    · simp at h
  · intro h
    rcases hmem _ h with h | h
    · exact (setupEvents_only_setup h).2.2.2.1 rfl
    · simp at h
  · intro h
    rcases hmem _ h with h | h
    · exact (setupEvents_only_setup h).2.2.2.2.1 rfl
    · simp at h

/-- Witness for the amended C3 at the concrete configurations. -/
theorem C3_unknown_variant_witness :
    (trainEvents cfgBogusTrain).getLast? = some Ev.raiseUnknownModel ∧
    Ev.processBatch ∉ trainEvents cfgBogusTrain ∧
    (evaluateEvents cfgBogusEval).getLast? = some Ev.raiseUnknownModel := by
  have h := C3_unknown_variant cfgBogusTrain cfgBogusEval (by decide) (by decide)
  exact ⟨h.1, h.2.2.2.1, h.2.2.2.2.2.2.2.1⟩

theorem mem_trainEvents_preloop {cfg : TrainCfg} {e2 : Ev} {tail : List Ev}
    (htr : trainEvents cfg = setupEvents cfg ++ ([Ev.buildModel] ++
      ([Ev.createScheduler, Ev.createOptimizer, Ev.printMsg] ++ pretrainEvents cfg ++
        tail)))
    (he : e2 ∈ trainEvents cfg) :
    e2 ∈ setupEvents cfg ∨ e2 = Ev.buildModel ∨ e2 = Ev.createScheduler ∨
      e2 = Ev.createOptimizer ∨ e2 = Ev.printMsg ∨ e2 = Ev.loadPretrainedFile ∨
      e2 ∈ tail := by
  rw [htr] at he
  rw [List.mem_append] at he
  rcases he with h | h
  · exact Or.inl h
  rw [List.mem_append] at h
  rcases h with h | h
  · simp at h; tauto
  rw [List.mem_append, List.mem_append] at h
  rcases h with (h | h) | h
  · simp at h; tauto
  · rcases mem_pretrainEvents h with h | h <;> tauto
  · tauto

/-- C8: with a resume path given to train (holding a parseable epoch
number) and a known variant: if the model-parameters blob is absent the
run ends with a fatal missing-model error, with no state loaded and no
training batch processed; if the model blob is present but the
optimizer blob is absent the run ends with a fatal missing-optimizer
error, again with no state loaded and no batch processed; and when both
blobs are present both state mappings are loaded. -/
theorem C8_resume_blobs (cfg : TrainCfg) (p : String) (e : ℕ)
    (hres : cfg.resume_model = some p) (hk : knownVariant cfg.use_model = true)
    (hparse : parseResumeEpoch p = some e) :
    (cfg.files.contains (pathJoin p "model.pdparams") = false →
      (trainEvents cfg).getLast? = some Ev.raiseMissingModelBlob ∧
      Ev.processBatch ∉ trainEvents cfg ∧
      Ev.loadModelState ∉ trainEvents cfg ∧
      Ev.loadOptState ∉ trainEvents cfg) ∧
    (cfg.files.contains (pathJoin p "model.pdparams") = true →
      cfg.files.contains (pathJoin p "optimizer.pdopt") = false →
      (trainEvents cfg).getLast? = some Ev.raiseMissingOptBlob ∧
      Ev.processBatch ∉ trainEvents cfg ∧
      Ev.loadModelState ∉ trainEvents cfg ∧
      Ev.loadOptState ∉ trainEvents cfg) ∧
    (cfg.files.contains (pathJoin p "model.pdparams") = true →
      cfg.files.contains (pathJoin p "optimizer.pdopt") = true →
      Ev.loadModelState ∈ trainEvents cfg ∧ Ev.loadOptState ∈ trainEvents cfg) := by
  have htr : trainEvents cfg = setupEvents cfg ++ ([Ev.buildModel] ++
      ([Ev.createScheduler, Ev.createOptimizer, Ev.printMsg] ++ pretrainEvents cfg ++
        resumeLoadEvents cfg p e)) := by
    simp only [trainEvents, trainAfterModelEvents, if_pos hk, hres, hparse]
  refine ⟨?_, ?_, ?_⟩
  · intro hA
    have hload : resumeLoadEvents cfg p e = [Ev.raiseMissingModelBlob] := by
      unfold resumeLoadEvents
      rw [if_neg (by rw [hA]; decide)]
    rw [hload] at htr
    refine ⟨?_, ?_, ?_, ?_⟩
    · rw [htr]
      simp only [← List.append_assoc]
      rw [List.getLast?_concat]
    · intro h
      rcases mem_trainEvents_preloop htr h with h | h | h | h | h | h | h
      · exact (setupEvents_only_setup h).2.1 rfl
      all_goals simp at h
    · intro h
      rcases mem_trainEvents_preloop htr h with h | h | h | h | h | h | h
      · exact (setupEvents_only_setup h).2.2.2.2.1 rfl
      all_goals simp at h
    · intro h
      rcases mem_trainEvents_preloop htr h with h | h | h | h | h | h | h
      · exact (setupEvents_only_setup h).2.2.2.2.2.1 rfl
      all_goals simp at h
  · intro hA hB
    have hload : resumeLoadEvents cfg p e = [Ev.raiseMissingOptBlob] := by
      unfold resumeLoadEvents
      rw [if_pos hA, if_neg (by rw [hB]; decide)]
    rw [hload] at htr
    refine ⟨?_, ?_, ?_, ?_⟩
    · rw [htr]
      simp only [← List.append_assoc]
      rw [List.getLast?_concat]
    · intro h
      rcases mem_trainEvents_preloop htr h with h | h | h | h | h | h | h
      · exact (setupEvents_only_setup h).2.1 rfl
      all_goals simp at h
    · intro h
      rcases mem_trainEvents_preloop htr h with h | h | h | h | h | h | h
      · exact (setupEvents_only_setup h).2.2.2.2.1 rfl
      all_goals simp at h
    · intro h
      rcases mem_trainEvents_preloop htr h with h | h | h | h | h | h | h
      · exact (setupEvents_only_setup h).2.2.2.2.2.1 rfl
      all_goals simp at h
  · intro hA hB
    have hload : resumeLoadEvents cfg p e =
        [Ev.loadModelState, Ev.loadOptState, Ev.printMsg] ++ epochLoopEvents cfg e := by
      unfold resumeLoadEvents
      rw [if_pos hA, if_pos hB]
    rw [hload] at htr
    constructor <;> (rw [htr]; simp)

/-- Witness for C8: concrete resume configuration with both blobs absent. -/
theorem C8_resume_blobs_witness :
    (trainEvents cfgResumeMissing).getLast? = some Ev.raiseMissingModelBlob ∧
    Ev.processBatch ∉ trainEvents cfgResumeMissing ∧
    Ev.loadModelState ∈ trainEvents cfgResume10 := by
  have h1 := C8_resume_blobs cfgResumeMissing "models/deepspeech2/epoch_7/" 7 rfl
    (by decide) (by decide)
  have h2 := C8_resume_blobs cfgResume10 "models/deepspeech2/epoch_10/" 10 rfl
    (by decide) (by decide)
  exact ⟨(h1.1 (by decide)).1, (h1.1 (by decide)).2.1,
    (h2.2.2 (by decide) (by decide)).1⟩

theorem mem_trainEvents_rank_nonzero {cfg : TrainCfg} (hr : cfg.local_rank ≠ 0) {e : Ev}
    (he : e ∈ trainEvents cfg) :
    e = Ev.fleetSetup ∨ e = Ev.readAugmentConf ∨ e = Ev.buildTrainDataset ∨
    e = Ev.buildTrainLoader ∨ e = Ev.buildTestDataset ∨ e = Ev.buildTestLoader ∨
    e = Ev.buildModel ∨ e = Ev.raiseUnknownModel ∨ e = Ev.raiseNoEpochInResumePath ∨
    e = Ev.createScheduler ∨ e = Ev.createOptimizer ∨ e = Ev.printMsg ∨
    e = Ev.loadPretrainedFile ∨ e = Ev.raiseMissingModelBlob ∨
    e = Ev.raiseMissingOptBlob ∨ e = Ev.loadModelState ∨ e = Ev.loadOptState ∨
    e = Ev.processBatch ∨ e = Ev.schedStep := by
  unfold trainEvents at he
  rw [List.mem_append] at he
  rcases he with h | h
  · rcases mem_setupEvents_rank_nonzero hr h with h | h | h | h | h | h <;> tauto
  · split at h
    · rw [List.mem_append] at h
      rcases h with h | h
      · simp at h; tauto
      · rcases mem_trainAfterModelEvents h with h | h | h | h | h | h | h | h | h | h
        · tauto
        · tauto
        · tauto
        · tauto
        · tauto
        · tauto
        · tauto
        · tauto
        · tauto
        · rcases mem_epochEvents_rank_nonzero hr h with h | h <;> tauto
    · simp at h; tauto

/-- C9 counterexample: the dataset-size print of line 267 (and the
pretrained/resume load confirmations) run on every rank: a worker of
rank 1 emits a log record during train, so a non-zero rank does perform
a log emission and the claim fails at this concrete configuration. -/
theorem C9_counterexample :
    cfgRankOne.local_rank = 1 ∧
    Ev.printMsg ∈ trainEvents cfgRankOne ∧
    Ev.printMsg.isLogEmission = true := by
  decide

/-- C9 amended: during train, a worker with non-zero rank performs no
file-system write, no checkpoint save, no evaluation and no scalar-log
write; the only log emissions it performs are console prints (the
dataset-size print of line 267 and the load-confirmation prints of lines
277/281/283/291, which are not rank-gated). -/
theorem C9_rank_gating (cfg : TrainCfg) (hr : cfg.local_rank ≠ 0) (e : Ev)
    (he : e ∈ trainEvents cfg) :
    e.isFsWrite = false ∧ e ≠ Ev.saveCheckpoint ∧ e ≠ Ev.runEval ∧
    e ≠ Ev.scalarLog ∧ e ≠ Ev.deleteLogs ∧ e ≠ Ev.createLogWriter ∧
    (e.isLogEmission = true → e = Ev.printMsg) := by
  rcases mem_trainEvents_rank_nonzero hr he with
    h | h | h | h | h | h | h | h | h | h | h | h | h | h | h | h | h | h | h <;>
    subst h <;> decide

/-- Witness for the amended C9 at the concrete rank-1 configuration. -/
theorem C9_rank_gating_witness :
    Ev.processBatch.isFsWrite = false ∧ Ev.processBatch ≠ Ev.saveCheckpoint ∧
    Ev.processBatch ≠ Ev.runEval ∧ Ev.processBatch ≠ Ev.scalarLog ∧
    Ev.processBatch ≠ Ev.deleteLogs ∧ Ev.processBatch ≠ Ev.createLogWriter ∧
    (Ev.processBatch.isLogEmission = true → Ev.processBatch = Ev.printMsg) :=
  C9_rank_gating cfgRankOne (by decide) Ev.processBatch (by decide)

/-! ## Helper lemmas: state dicts -/

theorem sdLookup_cons_of_eq {p : String × Tensor} {n : String} (h : p.1 = n)
    (l : StateDict) : sdLookup (p :: l) n = some p.2 := by
  unfold sdLookup
  rw [List.find?_cons_of_pos _ (by simp [h])]
  rfl

theorem sdLookup_cons_of_ne {p : String × Tensor} {n : String} (h : p.1 ≠ n)
    (l : StateDict) : sdLookup (p :: l) n = sdLookup l n := by
  unfold sdLookup
  rw [List.find?_cons_of_neg _ (by simp [h])]

theorem sdLookup_sdErase (d : StateDict) (m n : String) :
    sdLookup (sdErase d m) n = if n = m then none else sdLookup d n := by
  induction d with
  | nil => simp [sdErase, sdLookup]
  | cons p l ih =>
    by_cases hpm : p.1 = m
    · have hb : (p.1 == m) = true := beq_iff_eq.mpr hpm
      have hstep : sdErase (p :: l) m = sdErase l m := by simp [sdErase, hb]
      rw [hstep, ih]
      by_cases hnm : n = m
      · rw [if_pos hnm, if_pos hnm]
      · rw [if_neg hnm, if_neg hnm,
          sdLookup_cons_of_ne (p := p) (by rw [hpm]; exact fun h => hnm h.symm) l]
    · have hb : (p.1 == m) = false := beq_eq_false_iff_ne.mpr hpm
      have hstep : sdErase (p :: l) m = p :: sdErase l m := by simp [sdErase, hb]
      rw [hstep]
      by_cases hpn : p.1 = n
      · have hnm : n ≠ m := fun h => hpm (hpn.trans h)
        rw [if_neg hnm, sdLookup_cons_of_eq hpn (sdErase l m),
          sdLookup_cons_of_eq hpn l]
      · rw [sdLookup_cons_of_ne hpn (sdErase l m), ih, sdLookup_cons_of_ne hpn l]

theorem prunePretrainedStep_lookup_other (acc : StateDict × List LoadWarning)
    (q : String × Tensor) (n : String) (hqn : q.1 ≠ n) :
    sdLookup (prunePretrainedStep acc q).1 n = sdLookup acc.1 n := by
  unfold prunePretrainedStep
  cases h : sdLookup acc.1 q.1 with
  | none => rfl
  | some t =>
    simp only [h]
    split
    · simp only
      rw [sdLookup_sdErase, if_neg (fun hh => hqn hh.symm)]
    · rfl

theorem prunePretrained_warnings_mono (md : List (String × Tensor)) :
    ∀ (acc : StateDict × List LoadWarning) (w : LoadWarning), w ∈ acc.2 →
      w ∈ (List.foldl prunePretrainedStep acc md).2 := by
  induction md with
  | nil => intro acc w hw; exact hw
  | cons q md ih =>
    intro acc w hw
    rw [List.foldl_cons]
    apply ih
    unfold prunePretrainedStep
    cases h : sdLookup acc.1 q.1 with
    | none => simp [hw]
    | some t => simp only [h]; split <;> simp [hw]

theorem prunePretrained_foldl_lookup_notin (md : List (String × Tensor)) :
    ∀ (acc : StateDict × List LoadWarning) (n : String), (∀ q ∈ md, q.1 ≠ n) →
      sdLookup (List.foldl prunePretrainedStep acc md).1 n = sdLookup acc.1 n := by
  induction md with
  | nil => intro acc n _; rfl
  | cons q md ih =>
    intro acc n hn
    rw [List.foldl_cons,
      ih _ n (fun r hr => hn r (List.mem_cons_of_mem q hr))]
    exact prunePretrainedStep_lookup_other acc q n (hn q (List.mem_cons_self q md))

theorem prunePretrained_foldl_spec (md : List (String × Tensor)) :
    ∀ (acc : StateDict × List LoadWarning) (n : String) (w : Tensor),
      (n, w) ∈ md → (md.map Prod.fst).Nodup →
      (sdLookup (List.foldl prunePretrainedStep acc md).1 n =
        (match sdLookup acc.1 n with
         | some t => if w.shape ≠ t.shape then none else some t
         | none => none) ∧
      (sdLookup acc.1 n = none →
        LoadWarning.lackWeight n ∈ (List.foldl prunePretrainedStep acc md).2) ∧
      (∀ t, sdLookup acc.1 n = some t → w.shape ≠ t.shape →
        LoadWarning.shapeMismatch n ∈ (List.foldl prunePretrainedStep acc md).2)) := by
  induction md with
  | nil => intro acc n w hmem; simp at hmem
  | cons q md ih =>
    intro acc n w hmem hnd
    rw [List.map_cons, List.nodup_cons] at hnd
    obtain ⟨hq, hnd2⟩ := hnd
    rcases List.mem_cons.mp hmem with heq | hmem2
    · subst heq
      have hnotin : ∀ r ∈ md, r.1 ≠ n :=
        fun r hr h => hq (List.mem_map.mpr ⟨r, hr, h⟩)
      rw [List.foldl_cons]
      cases hl : sdLookup acc.1 n with
      | none =>
        have hstep : prunePretrainedStep acc (n, w) =
            (acc.1, acc.2 ++ [LoadWarning.lackWeight n]) := by
          unfold prunePretrainedStep
          simp [hl]
        refine ⟨?_, ?_, ?_⟩
        · rw [prunePretrained_foldl_lookup_notin md _ n hnotin, hstep]
          simp [hl]
        · intro _
          apply prunePretrained_warnings_mono
          rw [hstep]
          simp
        · intro t ht
          simp at ht
      | some t =>
        by_cases hsh : w.shape = t.shape
        · have hstep : prunePretrainedStep acc (n, w) = acc := by
            unfold prunePretrainedStep
            simp [hl, hsh]
          refine ⟨?_, ?_, ?_⟩
          · rw [prunePretrained_foldl_lookup_notin md _ n hnotin, hstep, hl]
            simp [hsh]
          · intro hcon
            simp at hcon
          · intro t2 ht2 hne2
            injection ht2 with ht2
            subst ht2
            exact absurd hsh hne2
        · have hstep : prunePretrainedStep acc (n, w) =
              (sdErase acc.1 n, acc.2 ++ [LoadWarning.shapeMismatch n]) := by
            unfold prunePretrainedStep
            simp [hl, hsh]
          refine ⟨?_, ?_, ?_⟩
          · rw [prunePretrained_foldl_lookup_notin md _ n hnotin, hstep]
            simp only
            rw [sdLookup_sdErase, if_pos rfl]
            simp [hsh]
          · intro hcon
            simp at hcon
          · intro t2 ht2 _
            apply prunePretrained_warnings_mono
            rw [hstep]
            simp
    · have hqn : q.1 ≠ n :=
        fun h => hq (h ▸ List.mem_map.mpr ⟨(n, w), hmem2, rfl⟩)
      rw [List.foldl_cons]
      have hpre := prunePretrainedStep_lookup_other acc q n hqn
      have ihh := ih (prunePretrainedStep acc q) n w hmem2 hnd2
      rw [hpre] at ihh
      exact ihh

theorem find?_eq_of_nodup (md : StateDict) (n : String) (w : Tensor)
    (hmem : (n, w) ∈ md) (hnd : (md.map Prod.fst).Nodup) :
    md.find? (fun p => p.1 == n) = some (n, w) := by
  induction md with
  | nil => simp at hmem
  | cons q md ih =>
    rw [List.map_cons, List.nodup_cons] at hnd
    obtain ⟨hq, hnd2⟩ := hnd
    rcases List.mem_cons.mp hmem with heq | hmem2
    · subst heq
      rw [List.find?_cons_of_pos _ (by simp)]
    · have hqn : q.1 ≠ n :=
        fun h => hq (h ▸ List.mem_map.mpr ⟨(n, w), hmem2, rfl⟩)
      rw [List.find?_cons_of_neg _ (by simp [hqn])]
      exact ih hmem2 hnd2

theorem sdLookup_set_state_dict (md d : StateDict) (n : String) (w : Tensor)
    (hmem : (n, w) ∈ md) (hnd : (md.map Prod.fst).Nodup) :
    sdLookup (set_state_dict md d) n = some ((sdLookup d n).getD w) := by
  have hcomp : ((fun p : String × Tensor => p.1 == n) ∘ (fun p : String × Tensor =>
      match sdLookup d p.1 with
      | some t => (p.1, t)
      | none => p)) = (fun p : String × Tensor => p.1 == n) := by
    funext p
    simp only [Function.comp_apply]
    cases h : sdLookup d p.1 <;> simp [h]
  rw [set_state_dict, sdLookup, List.find?_map, hcomp,
    find?_eq_of_nodup md n w hmem hnd]
  cases h : sdLookup d n <;> simp [h]

/-- C7: for a model whose parameter names are unique, loading pretrained
weights copies exactly the parameters present in the loaded dict with a
matching shape; a shape-mismatched parameter keeps its initialization
and produces a shape warning, a parameter missing from the dict keeps
its initialization and produces a lack warning, the model keeps exactly
its own parameter names, and the load always returns (it cannot raise a
fatal error, its type is total). -/
theorem C7_pretrained_partial_load (md pre : StateDict)
    (hnd : (md.map Prod.fst).Nodup) (n : String) (w : Tensor)
    (hmem : (n, w) ∈ md) :
    sdLookup (loadPretrained md pre).1 n =
      some (match sdLookup pre n with
            | some t => if t.shape = w.shape then t else w
            | none => w) ∧
    (sdLookup pre n = none →
      LoadWarning.lackWeight n ∈ (loadPretrained md pre).2) ∧
    (∀ t, sdLookup pre n = some t → t.shape ≠ w.shape →
      LoadWarning.shapeMismatch n ∈ (loadPretrained md pre).2) ∧
    (loadPretrained md pre).1.map Prod.fst = md.map Prod.fst := by
  have hspec := prunePretrained_foldl_spec md (pre, []) n w hmem hnd
  refine ⟨?_, ?_, ?_, ?_⟩
  · show sdLookup (set_state_dict md (prunePretrained md pre).1) n = _
    rw [sdLookup_set_state_dict md _ n w hmem hnd]
    have h1 := hspec.1
    dsimp only at h1 ⊢
    rw [show (prunePretrained md pre).1 = (List.foldl prunePretrainedStep (pre, []) md).1
      from rfl, h1]
    cases hl : sdLookup pre n with
    | none => rfl
    | some t =>
      dsimp only
      by_cases hsh : w.shape = t.shape
      · rw [if_neg (not_not_intro hsh), if_pos hsh.symm]
        rfl
      · rw [if_pos hsh, if_neg (fun hh => hsh hh.symm)]
        rfl
  · intro hnone
    exact hspec.2.1 hnone
  · intro t ht hsh
    exact hspec.2.2 t ht (Ne.symm hsh)
  · show (set_state_dict md (prunePretrained md pre).1).map Prod.fst = md.map Prod.fst
    unfold set_state_dict
    rw [List.map_map]
    apply List.map_congr_left
    intro p hp
    simp only [Function.comp_apply]
    cases h : sdLookup (prunePretrained md pre).1 p.1 <;> simp [h]

/-- Witness for C7: parameter a is copied (matching shape), parameter b
keeps its initialization with a shape warning, parameter c keeps its
initialization with a lack warning. -/
theorem C7_pretrained_partial_load_witness :
    sdLookup (loadPretrained mdW preW).1 "a" = some ⟨[2], 10⟩ ∧
    sdLookup (loadPretrained mdW preW).1 "b" = some ⟨[3], 1⟩ ∧
    sdLookup (loadPretrained mdW preW).1 "c" = some ⟨[4], 2⟩ ∧
    LoadWarning.shapeMismatch "b" ∈ (loadPretrained mdW preW).2 ∧
    LoadWarning.lackWeight "c" ∈ (loadPretrained mdW preW).2 := by
  have hmatch := C7_pretrained_partial_load mdW preW (by decide) "a" ⟨[2], 0⟩ (by decide)
  have hmis := C7_pretrained_partial_load mdW preW (by decide) "b" ⟨[3], 1⟩ (by decide)
  have hlack := C7_pretrained_partial_load mdW preW (by decide) "c" ⟨[4], 2⟩ (by decide)
  exact ⟨hmatch.1.trans (by decide), hmis.1.trans (by decide), hlack.1.trans (by decide),
    hmis.2.2.1 ⟨[9], 11⟩ (by decide) (by decide), hlack.2.1 (by decide)⟩

theorem set_state_dict_keys (md d : StateDict) :
    (set_state_dict md d).map Prod.fst = md.map Prod.fst := by
  unfold set_state_dict
  rw [List.map_map]
  apply List.map_congr_left
  intro p hp
  simp only [Function.comp_apply]
  cases h : sdLookup d p.1 <;> simp [h]

theorem set_state_dict_override (md pre res : StateDict)
    (hcov : ∀ p ∈ md, (sdLookup res p.1).isSome = true) :
    set_state_dict (loadPretrained md pre).1 res = set_state_dict md res := by
  show set_state_dict (set_state_dict md (prunePretrained md pre).1) res = _
  unfold set_state_dict
  rw [List.map_map]
  apply List.map_congr_left
  intro p hp
  simp only [Function.comp_apply]
  cases hr : sdLookup res p.1 with
  | none =>
    have hcp := hcov p hp
    rw [hr] at hcp
    simp at hcp
  | some t =>
    cases hd : sdLookup (prunePretrained md pre).1 p.1 <;> simp [hd, hr]

/-- C10: when both a pretrained path and a resume path are given, the
pretrained file is loaded strictly before the resume checkpoint (the
trace splits into a prefix holding the pretrained load and a suffix
holding the resume load); the model state entering the first batch is
set_state_dict of the resume dict, independent of the pretrained dict
whenever the resume dict covers the model parameters (the partial
pretrained load is fully overwritten), each covered parameter holding
exactly the resume value; and the optimizer state is the resume
checkpoint optimizer state. -/
theorem C10_pretrained_then_resume :
    (∀ (cfg : TrainCfg) (p q : String) (e : ℕ),
      cfg.pretrained_model = some q → cfg.resume_model = some p →
      knownVariant cfg.use_model = true → parseResumeEpoch p = some e →
      cfg.files.contains (pathJoin p "model.pdparams") = true →
      cfg.files.contains (pathJoin p "optimizer.pdopt") = true →
      trainEvents cfg =
        (setupEvents cfg ++ [Ev.buildModel] ++
          [Ev.createScheduler, Ev.createOptimizer, Ev.printMsg] ++
          pretrainEvents cfg) ++ resumeLoadEvents cfg p e ∧
      Ev.loadPretrainedFile ∈ setupEvents cfg ++ [Ev.buildModel] ++
        [Ev.createScheduler, Ev.createOptimizer, Ev.printMsg] ++ pretrainEvents cfg ∧
      Ev.loadModelState ∉ setupEvents cfg ++ [Ev.buildModel] ++
        [Ev.createScheduler, Ev.createOptimizer, Ev.printMsg] ++ pretrainEvents cfg ∧
      Ev.loadModelState ∈ resumeLoadEvents cfg p e ∧
      Ev.loadPretrainedFile ∉ resumeLoadEvents cfg p e) ∧
    (∀ md pre res : StateDict,
      (∀ x ∈ md, (sdLookup res x.1).isSome = true) →
      modelStateBeforeTraining md (some pre) (some res) =
        modelStateBeforeTraining md none (some res)) ∧
    (∀ md pre res : StateDict, (md.map Prod.fst).Nodup →
      ∀ n w, (n, w) ∈ md → ∀ t, sdLookup res n = some t →
      sdLookup (modelStateBeforeTraining md (some pre) (some res)) n = some t) ∧
    (∀ opt_init res_opt : StateDict,
      optStateBeforeTraining opt_init (some res_opt) = res_opt) := by
  refine ⟨?_, ?_, ?_, fun _ _ => rfl⟩
  · intro cfg p q e hpre hres hk hparse hm ho
    have htr : trainEvents cfg = setupEvents cfg ++ ([Ev.buildModel] ++
        ([Ev.createScheduler, Ev.createOptimizer, Ev.printMsg] ++ pretrainEvents cfg ++
          resumeLoadEvents cfg p e)) := by
      simp only [trainEvents, trainAfterModelEvents, if_pos hk, hres, hparse]
    refine ⟨by rw [htr]; simp [List.append_assoc], ?_, ?_, ?_, ?_⟩
    · simp [pretrainEvents, hpre]
    · intro hcon
      rw [List.mem_append] at hcon
      rcases hcon with h | h
      · rw [List.mem_append] at h
        rcases h with h | h
        · rw [List.mem_append] at h
          rcases h with h | h
          · exact (setupEvents_only_setup h).2.2.2.2.1 rfl
          · simp at h
        · simp at h
      · rcases mem_pretrainEvents h with h | h <;> simp at h
    · unfold resumeLoadEvents
      rw [if_pos hm, if_pos ho]
      simp
    · intro hcon
      unfold resumeLoadEvents at hcon
      rw [if_pos hm, if_pos ho] at hcon
      rw [List.mem_append] at hcon
      rcases hcon with h | h
      · simp at h
      · rcases mem_epochEvents (mem_epochLoopEvents h) with h | h | h | h | h | h <;>
          simp at h
  · intro md pre res hcov
    exact set_state_dict_override md pre res hcov
  · intro md pre res hnd n w hmem t hres
    show sdLookup (set_state_dict (loadPretrained md pre).1 res) n = some t
    have hkeys : (loadPretrained md pre).1.map Prod.fst = md.map Prod.fst :=
      set_state_dict_keys md (prunePretrained md pre).1
    have hn : n ∈ (loadPretrained md pre).1.map Prod.fst := by
      rw [hkeys]
      exact List.mem_map.mpr ⟨(n, w), hmem, rfl⟩
    obtain ⟨x, hx, hxn⟩ := List.mem_map.mp hn
    have hx2 : (n, x.2) ∈ (loadPretrained md pre).1 := by
      have hxe : x = (n, x.2) := by
        obtain ⟨a, b⟩ := x
        simp only at hxn ⊢
        rw [hxn]
      rwa [hxe] at hx
    have hnd2 : ((loadPretrained md pre).1.map Prod.fst).Nodup := by
      rw [hkeys]; exact hnd
    rw [sdLookup_set_state_dict _ res n x.2 hx2 hnd2, hres]
    rfl

/-- Witness for C10 at the concrete configuration and dicts. -/
theorem C10_pretrained_then_resume_witness :
    Ev.loadModelState ∈ resumeLoadEvents cfgBoth "models/deepspeech2/epoch_4/" 4 ∧
    Ev.loadPretrainedFile ∉ resumeLoadEvents cfgBoth "models/deepspeech2/epoch_4/" 4 ∧
    modelStateBeforeTraining mdW (some preW) (some resW) =
      modelStateBeforeTraining mdW none (some resW) ∧
    sdLookup (modelStateBeforeTraining mdW (some preW) (some resW)) "b" =
      some ⟨[3], 98⟩ ∧
    optStateBeforeTraining preW (some resW) = resW := by
  have h := C10_pretrained_then_resume
  have h1 := h.1 cfgBoth "models/deepspeech2/epoch_4/" "models/pretrained/" 4 rfl rfl
    (by decide) (by decide) (by decide) (by decide)
  exact ⟨h1.2.2.2.1, h1.2.2.2.2, h.2.1 mdW preW resW (by decide),
    h.2.2.1 mdW preW resW (by decide) "b" ⟨[3], 1⟩ (by decide) ⟨[3], 98⟩ (by decide),
    h.2.2.2 preW resW⟩

/-- C6: a successful export produces the wrapper whose forward is, for
every input, softmax applied to the first output of the trained model
applied to the masked, normalized audio (normalization with the stored
mean/std first, then time-axis masking with the per-sample lengths, then
the model with the initial recurrent state, then softmax), and whose
serialized input contract is the fixed three-tensor InputSpec list
(batch and time as -1 wildcards, feature_dim, num_rnn_layers and
rnn_size fixed); export fails when model.pdparams is absent under the
checkpoint path. -/
theorem C6_export_wrapper (T : Type) (st : InferStages T) (um rm : String)
    (files : List String) (mean std : ℚ) (fd nl rs : ℤ) :
    (∀ art : ExportArtifact T,
      exportRun T st um files rm mean std fd nl rs = Except.ok art →
      (∀ audio audio_len init_state,
        art.forward audio audio_len init_state =
          st.softmax ((st.base_model
            (st.mask (st.normalizerOf mean std audio) audio_len)
            audio_len init_state).1)) ∧
      art.input_spec = [[-1, fd, -1], [-1], [nl, -1, rs]]) ∧
    (files.contains (pathJoin rm "model.pdparams") = false →
      ∃ msg, exportRun T st um files rm mean std fd nl rs = Except.error msg) := by
  constructor
  · intro art hok
    unfold exportRun at hok
    split at hok
    · split at hok
      · injection hok with hok
        subst hok
        exact ⟨fun _ _ _ => rfl, rfl⟩
      · exact Except.noConfusion hok
    · exact Except.noConfusion hok
  · intro hmiss
    unfold exportRun
    split
    · rw [if_neg (by rw [hmiss]; decide)]
      exact ⟨_, rfl⟩
    · exact ⟨_, rfl⟩

/-- Witness for C6: a concrete instantiation over natural numbers. -/
theorem C6_export_wrapper_witness :
    artExport.forward 1 0 0 = 35 ∧
    artExport.input_spec = [[-1, 161, -1], [-1], [3, -1, 1024]] ∧
    exportRun ℕ stExport "deepspeech2" [] "models/deepspeech2/epoch_50" 0 1 161 3 1024 =
      Except.error "model.pdparams does not exist under the checkpoint path" := by
  have h := (C6_export_wrapper ℕ stExport "deepspeech2" "models/deepspeech2/epoch_50"
    filesExport 0 1 161 3 1024).1 artExport rfl
  exact ⟨(h.1 1 0 0).trans (by decide), h.2, rfl⟩

end PPASR
